import Mathlib

/-!
KodLaewLong installer stub

A shallow embedding of `server/installer-stub/main.go`: the self-extracting
launcher `main` and its error reporter `showError`.

* Byte buffers are lists of bytes; Go strings used as messages, paths and
  command-line arguments are Lean strings.
* The operating system is an explicit environment `Env` (the results of
  `os.Executable`, `os.ReadFile`, `os.TempDir`, `filepath.Join`, `os.WriteFile`,
  `os.Remove` and of every `cmd.Run`) together with a file-system state that is threaded
  through the run.  Every call that `main` makes with a side effect is logged
  as an `Event`.
* A Go run-time panic is the result `none`.
-/

namespace InstallerStub

/-! ## Data model -/

/-- A Go `[]byte`. -/
abbrev Bytes := List UInt8

/-- The constant `SCRIPT_MARKER`. -/
def SCRIPT_MARKER : String := "###KODLAEWLONG_SCRIPT_START###"

/-- The conversion `[]byte(s)` of a Go string holding ASCII text. -/
def asciiBytes (s : String) : Bytes := s.data.map (fun c => c.toNat.toUInt8)

/-- The local `markerBytes := []byte(SCRIPT_MARKER)` of `main`. -/
def markerBytes : Bytes := asciiBytes SCRIPT_MARKER

/-! ## `bytes.HasPrefix` and `bytes.Index` of the Go standard library -/

/-- Go `bytes.HasPrefix(s, p)`: does `s` begin with `p`. -/
def hasPrefix : Bytes → Bytes → Bool
  | _, [] => true
  | [], _ :: _ => false
  | a :: s, b :: p => a == b && hasPrefix s p

/-- The scan behind `bytes.Index`: `k` is the offset of `s` in the buffer. -/
def indexFrom (sep : Bytes) : Bytes → Nat → Int
  | [], k => if hasPrefix [] sep then (k : Int) else -1
  | a :: s, k => if hasPrefix (a :: s) sep then (k : Int) else indexFrom sep s (k + 1)

/-- Go `bytes.Index(s, sep)`: the index of the first instance of `sep` in `s`,
or `-1` if `sep` is not present in `s`. -/
def Index (s sep : Bytes) : Int := indexFrom sep s 0

/-- The slice expression `data[lo:]`; `none` is the run-time panic
"slice bounds out of range". -/
def sliceFrom (data : Bytes) (lo : Int) : Option Bytes :=
  if 0 ≤ lo ∧ lo ≤ (data.length : Int) then some (data.drop lo.toNat) else none

/-! ## The extraction steps of `main` -/

/-- The local `markerIndex := bytes.Index(data, markerBytes)`. -/
def markerIndex (data : Bytes) : Int := Index data markerBytes

/-- The local `scriptStart := markerIndex + len(markerBytes)`. -/
def scriptStart (data : Bytes) : Int := markerIndex data + (markerBytes.length : Int)

/-- The local `script := string(data[scriptStart:])`, as bytes. -/
def script (data : Bytes) : Option Bytes := sliceFrom data (scriptStart data)

/-! ## The operating system -/

/-- The file system, as far as its regular files go: path to content. -/
abbrev FS := String → Option Bytes

/-- The file system after a successful `os.WriteFile(path, content, _)`. -/
def FS.write (fs : FS) (path : String) (content : Bytes) : FS :=
  fun p => if p = path then some content else fs p

/-- The file system after a successful `os.Remove(path)`: no file is at
`path`. -/
def FS.remove (fs : FS) (path : String) : FS :=
  fun p => if p = path then none else fs p

/-- An `exec.Cmd` as built by `exec.Command(name, args...)`, with the
`SysProcAttr.HideWindow` attribute (`false` when `SysProcAttr` is not set). -/
structure Cmd where
  name : String
  args : List String
  hideWindow : Bool
deriving DecidableEq, Repr

/-- The side-effecting calls of a run.  A Go `error` is `Option String`:
`none` is `nil`, `some msg` an error whose `Error()` is `msg`. -/
inductive Event where
  | writeFile (path : String) (content : Bytes) (perm : Nat) (err : Option String)
  | run (cmd : Cmd) (err : Option String)
  | remove (path : String)
deriving DecidableEq, Repr

/-- What the platform answers to the launcher. -/
structure Env where
  /-- Result of `os.Executable()`. -/
  executable : Except String String
  /-- Result of `os.ReadFile(path)`. -/
  readFile : String → Except String Bytes
  /-- Result of `os.TempDir()`. -/
  tempDir : String
  /-- Result of `filepath.Join(dir, name)`. -/
  join : String → String → String
  /-- Result of `os.WriteFile(path, content, 0644)` on a file system: `none` when it
  succeeds, else the error and the file system the failed call leaves. -/
  writeFile : String → Bytes → FS → Option (String × FS)
  /-- Result of `os.Remove(path)` on a file system: `none` when it succeeds,
  else the error and the file system the failed call leaves. -/
  remove : String → FS → Option (String × FS)
  /-- Result of `cmd.Run()`: start the child, wait for it to exit; the error (`nil` only
  for exit status 0) and the file system the child leaves. -/
  run : Cmd → FS → Option String × FS

/-- The state threaded through a run: the file system and the log of calls. -/
structure State where
  files : FS
  trace : List Event

/-! ## `showError` -/

/-- The format string of `showError` (a raw string literal in the source). -/
def errorFormat : String :=
  "\nAdd-Type -AssemblyName System.Windows.Forms\n[System.Windows.Forms.MessageBox]::Show('%s', 'KodLaewLong Error', 'OK', 'Error')\n"

/-- Go `fmt.Sprintf` for formats whose only verb is `%s` and whose operands are
strings: each `%s` is replaced by the next operand, unchanged; other
characters are copied. -/
def sprintfChars : List Char → List (List Char) → List Char
  | [], _ => []
  | '%' :: 's' :: rest, [] => "%!s(MISSING)".data ++ sprintfChars rest []
  | '%' :: 's' :: rest, a :: args => a ++ sprintfChars rest args
  | c :: rest, args => c :: sprintfChars rest args

/-- Go `fmt.Sprintf(format, arg)` with one string operand. -/
def Sprintf (format : String) (arg : String) : String :=
  ⟨sprintfChars format.data [arg.data]⟩

/-- The local `script` of `showError`. -/
def errorScript (message : String) : String := Sprintf errorFormat message

/-- The local `cmd` of `showError`. -/
def errorCmd (message : String) : Cmd :=
  ⟨"powershell.exe", ["-Command", errorScript message], false⟩

/-- The function `showError(message)`: run the interpreter on the inline dialog script and
ignore the result. -/
def showError (env : Env) (message : String) (s : State) : State :=
  let r := env.run (errorCmd message) s.files
  ⟨r.2, s.trace ++ [Event.run (errorCmd message) r.1]⟩

/-! ## `main` -/

/-- The local `scriptPath` of `main`. -/
def scriptPath (env : Env) : String := env.join env.tempDir "KodLaewLong-Installer.ps1"

/-- The commands `cmd` (`hide = true`) and `cmd2` (`hide = false`) of `main`. -/
def scriptCmd (path : String) (hide : Bool) : Cmd :=
  ⟨"powershell.exe", ["-ExecutionPolicy", "Bypass", "-NoProfile", "-File", path], hide⟩

/-- The part of `main` after the `defer`: run hidden, and on an error run
once more with a visible window, ignoring that result. -/
def runScript (env : Env) (path : String) (s : State) : State :=
  let r := env.run (scriptCmd path true) s.files
  let s1 : State := ⟨r.2, s.trace ++ [Event.run (scriptCmd path true) r.1]⟩
  match r.1 with
  | none => s1
  | some _ =>
    let r2 := env.run (scriptCmd path false) s1.files
    ⟨r2.2, s1.trace ++ [Event.run (scriptCmd path false) r2.1]⟩

/-- The deferred `os.Remove(scriptPath)`; its error is discarded. -/
def removeScript (env : Env) (path : String) (s : State) : State :=
  match env.remove path s.files with
  | none => ⟨s.files.remove path, s.trace ++ [Event.remove path]⟩
  | some (_, fs) => ⟨fs, s.trace ++ [Event.remove path]⟩

/-- The function `main`; `none` is a run-time panic. -/
def main (env : Env) (s : State) : Option State :=
  match env.executable with
  | .error err => some (showError env ("ไม่สามารถหาตำแหน่งไฟล์ได้: " ++ err) s)
  | .ok exePath =>
    match env.readFile exePath with
    | .error err => some (showError env ("ไม่สามารถอ่านไฟล์ได้: " ++ err) s)
    | .ok data =>
      if markerIndex data = -1 then
        some (showError env "ไม่พบสคริปต์ติดตั้ง กรุณาดาวน์โหลดไฟล์ใหม่" s)
      else
        match script data with
        | none => none
        | some script =>
          if script.length = 0 then
            some (showError env "สคริปต์ติดตั้งว่างเปล่า" s)
          else
            match env.writeFile (scriptPath env) script s.files with
            | some (err, fs) =>
              some (showError env ("ไม่สามารถสร้างไฟล์ชั่วคราวได้: " ++ err)
                ⟨fs, s.trace ++ [Event.writeFile (scriptPath env) script 0o644 (some err)]⟩)
            | none =>
              some (removeScript env (scriptPath env)
                (runScript env (scriptPath env)
                  ⟨s.files.write (scriptPath env) script,
                    s.trace ++ [Event.writeFile (scriptPath env) script 0o644 none]⟩))

/-- A run of the process: `main` from a file system and an empty log. -/
def launch (env : Env) (fs : FS) : Option State := main env ⟨fs, []⟩

/-! ## Observations on a log -/

/-- An error dialog: a run of the interpreter on an inline `-Command`. -/
def Event.isDialog : Event → Bool
  | .run ⟨_, "-Command" :: _, _⟩ _ => true
  | _ => false

/-- A child process. -/
def Event.isRun : Event → Bool
  | .run _ _ => true
  | _ => false

/-- A call of `os.WriteFile`. -/
def Event.isWrite : Event → Bool
  | .writeFile _ _ _ _ => true
  | _ => false

/-- Number of error dialogs in a log. -/
def dialogCount (t : List Event) : Nat := t.countP Event.isDialog

/-- Number of file writes in a log. -/
def writeCount (t : List Event) : Nat := t.countP Event.isWrite

/-- Number of child processes in a log. -/
def childCount (t : List Event) : Nat := t.countP Event.isRun

/-- A test platform: the executable is at `C:\setup.exe` and holds `image`,
every write and every removal succeeds, the hidden run of a script ends with
`hiddenErr`, every other child with `otherErr`, and no child touches the file
system. -/
def testEnv (image : Bytes) (hiddenErr otherErr : Option String) : Env where
  executable := .ok "C:\\setup.exe"
  readFile := fun _ => .ok image
  tempDir := "C:\\Temp"
  join := fun d n => d ++ "\\" ++ n
  writeFile := fun _ _ _ => none
  remove := fun _ _ => none
  run := fun c fs => (if c.hideWindow then hiddenErr else otherErr, fs)

/-- A log with exactly one error dialog, shown as the last call of the run. -/
def EndsWithOneDialog (t : List Event) : Prop :=
  dialogCount t = 1 ∧ ∃ m e, t.getLast? = some (Event.run (errorCmd m) e)

/-- The file system with no file. -/
def emptyFS : FS := fun _ => none

/-! ## Occurrences of a byte sequence -/

/-- The byte sequence `sep` occurs in `s` at offset `j`. -/
def OccursAt (sep s : Bytes) (j : Nat) : Prop := sep <+: s.drop j

instance (sep s : Bytes) (j : Nat) : Decidable (OccursAt sep s j) :=
  inferInstanceAs (Decidable (sep <+: s.drop j))

/-! ## Concrete images -/

/-- An image in which the marker occurs at offset 0 and again at offset 27,
the two occurrences sharing the bytes `###`. -/
def overlapImage : Bytes :=
  asciiBytes "###KODLAEWLONG_SCRIPT_START###KODLAEWLONG_SCRIPT_START###"

/-- An image that is the marker twice. -/
def doubleMarker : Bytes := markerBytes ++ markerBytes

/-- A stand-in for the bytes of a compiled stub. -/
def sampleStub : Bytes := asciiBytes "MZ stub code"

/-- The script of the packaging scenario. -/
def sampleScript : Bytes := asciiBytes "Write-Host \"hi\""

/-- An image as the packaging step makes it: stub, marker, script. -/
def sampleImage : Bytes := sampleStub ++ markerBytes ++ sampleScript

/-- The test platform on `sampleImage` with both runs of the script failing. -/
def failingEnv : Env := testEnv sampleImage (some "exit status 1") (some "exit status 1")

/-- The test platform on `sampleImage` with the script succeeding and the
removal of the temp script file failing, the file left in place. -/
def lockedEnv : Env :=
  { testEnv sampleImage none none with remove := fun _ fs => some ("Access is denied.", fs) }

/-- The test platform on `sampleImage` with the hidden run failing and the
visible run succeeding. -/
def fallbackEnv : Env := testEnv sampleImage (some "exit status 1") none

/-! ## The marker search -/

theorem hasPrefix_iff (s p : Bytes) : hasPrefix s p = true ↔ p <+: s := by
  induction s generalizing p with
  | nil => cases p <;> simp [hasPrefix]
  | cons a s ih =>
    cases p with
    | nil => simp [hasPrefix]
    | cons b p =>
      simp only [hasPrefix, Bool.and_eq_true, beq_iff_eq, ih, List.cons_prefix_cons]
      exact and_congr_left' eq_comm

theorem indexFrom_spec (sep : Bytes) : ∀ (s : Bytes) (k : Nat),
    (indexFrom sep s k = -1 ∧ ∀ j, ¬ OccursAt sep s j) ∨
    (∃ i : Nat, indexFrom sep s k = ((k + i : Nat) : Int) ∧ OccursAt sep s i ∧
      ∀ j < i, ¬ OccursAt sep s j) := by
  intro s
  induction s with
  | nil =>
    intro k
    by_cases h : hasPrefix [] sep = true
    · right
      refine ⟨0, by simp [indexFrom, h], ?_, by simp⟩
      simpa [OccursAt] using (hasPrefix_iff [] sep).1 h
    · left
      refine ⟨by simp [indexFrom, h], ?_⟩
      intro j hj
      exact h ((hasPrefix_iff [] sep).2 (by simpa [OccursAt] using hj))
  | cons a s ih =>
    intro k
    by_cases h : hasPrefix (a :: s) sep = true
    · right
      refine ⟨0, by simp [indexFrom, h], ?_, by simp⟩
      simpa [OccursAt] using (hasPrefix_iff (a :: s) sep).1 h
    · have h0 : ¬ OccursAt sep (a :: s) 0 := by
        intro hj
        exact h ((hasPrefix_iff (a :: s) sep).2 (by simpa [OccursAt] using hj))
      rcases ih (k + 1) with ⟨he, hn⟩ | ⟨i, he, ho, hn⟩
      · left
        refine ⟨by simp [indexFrom, h, he], ?_⟩
        intro j
        cases j with
        | zero => exact h0
        | succ j => simpa [OccursAt] using hn j
      · right
        refine ⟨i + 1, ?_, by simpa [OccursAt] using ho, ?_⟩
        · simp only [indexFrom, h, he]
          simp
          omega
        · intro j hj
          cases j with
          | zero => exact h0
          | succ j => simpa [OccursAt] using hn j (by omega)

theorem infix_iff_occursAt (sep s : Bytes) : sep <:+: s ↔ ∃ j, OccursAt sep s j := by
  constructor
  · rintro ⟨pre, suf, rfl⟩
    exact ⟨pre.length, by simp [OccursAt]⟩
  · rintro ⟨j, t, ht⟩
    refine ⟨s.take j, t, ?_⟩
    rw [List.append_assoc, ht, List.take_append_drop]

theorem occursAt_length_le {sep s : Bytes} {j : Nat} (h : OccursAt sep s j) (hs : sep ≠ []) :
    j + sep.length ≤ s.length := by
  have h1 := h.length_le
  have h2 : 0 < sep.length := List.length_pos.2 hs
  simp only [List.length_drop] at h1
  omega

theorem markerBytes_length : markerBytes.length = 30 := by decide

theorem markerBytes_ne_nil : markerBytes ≠ [] := by decide

/-- What the marker search and the slice give on every buffer. -/
theorem markerIndex_cases (data : Bytes) :
    (markerIndex data = -1 ∧ ¬ markerBytes <:+: data) ∨
    (∃ i : Nat, markerIndex data = (i : Int) ∧ OccursAt markerBytes data i ∧
      (∀ j < i, ¬ OccursAt markerBytes data j) ∧ i + 30 ≤ data.length ∧
      script data = some (data.drop (i + 30))) := by
  rcases indexFrom_spec markerBytes data 0 with ⟨he, hn⟩ | ⟨i, he, ho, hn⟩
  · left
    refine ⟨he, ?_⟩
    rw [infix_iff_occursAt]
    rintro ⟨j, hj⟩
    exact hn j hj
  · right
    have hlen := occursAt_length_le ho markerBytes_ne_nil
    rw [markerBytes_length] at hlen
    have hi : markerIndex data = (i : Int) := by
      simpa [markerIndex, Index] using he
    refine ⟨i, hi, ho, hn, hlen, ?_⟩
    have hs : scriptStart data = ((i + 30 : Nat) : Int) := by
      simp [scriptStart, hi, markerBytes_length]
    unfold script sliceFrom
    rw [hs, if_pos, Int.toNat_ofNat]
    constructor <;> omega
/-! ## The branches of `main` -/

theorem main_executable_error (env : Env) (s : State) (err : String)
    (hexe : env.executable = .error err) :
    main env s = some (showError env ("ไม่สามารถหาตำแหน่งไฟล์ได้: " ++ err) s) := by
  simp [main, hexe]

theorem main_read_error (env : Env) (s : State) (exePath err : String)
    (hexe : env.executable = .ok exePath) (hread : env.readFile exePath = .error err) :
    main env s = some (showError env ("ไม่สามารถอ่านไฟล์ได้: " ++ err) s) := by
  simp [main, hexe, hread]

theorem main_marker_missing (env : Env) (s : State) (exePath : String) (image : Bytes)
    (hexe : env.executable = .ok exePath) (hread : env.readFile exePath = .ok image)
    (hidx : markerIndex image = -1) :
    main env s = some (showError env "ไม่พบสคริปต์ติดตั้ง กรุณาดาวน์โหลดไฟล์ใหม่" s) := by
  simp [main, hexe, hread, hidx]

theorem main_empty_script (env : Env) (s : State) (exePath : String) (image : Bytes)
    (hexe : env.executable = .ok exePath) (hread : env.readFile exePath = .ok image)
    (hidx : markerIndex image ≠ -1) (hscript : script image = some []) :
    main env s = some (showError env "สคริปต์ติดตั้งว่างเปล่า" s) := by
  simp [main, hexe, hread, hidx, hscript]

theorem main_write_error (env : Env) (s : State) (exePath : String) (image payload : Bytes)
    (err : String) (fs : FS)
    (hexe : env.executable = .ok exePath) (hread : env.readFile exePath = .ok image)
    (hidx : markerIndex image ≠ -1) (hscript : script image = some payload)
    (hne : payload ≠ [])
    (hwrite : env.writeFile (scriptPath env) payload s.files = some (err, fs)) :
    main env s = some (showError env ("ไม่สามารถสร้างไฟล์ชั่วคราวได้: " ++ err)
      ⟨fs, s.trace ++ [Event.writeFile (scriptPath env) payload 0o644 (some err)]⟩) := by
  simp [main, hexe, hread, hidx, hscript, hne, hwrite]

theorem main_written (env : Env) (s : State) (exePath : String) (image payload : Bytes)
    (hexe : env.executable = .ok exePath) (hread : env.readFile exePath = .ok image)
    (hidx : markerIndex image ≠ -1) (hscript : script image = some payload)
    (hne : payload ≠ [])
    (hwrite : env.writeFile (scriptPath env) payload s.files = none) :
    main env s = some (removeScript env (scriptPath env) (runScript env (scriptPath env)
      ⟨s.files.write (scriptPath env) payload,
        s.trace ++ [Event.writeFile (scriptPath env) payload 0o644 none]⟩)) := by
  simp [main, hexe, hread, hidx, hscript, hne, hwrite]

/-- The slice of `main` never panics. -/
theorem script_isSome (image : Bytes) (hidx : markerIndex image ≠ -1) :
    ∃ payload, script image = some payload := by
  rcases markerIndex_cases image with ⟨h, _⟩ | ⟨i, _, _, _, _, hs⟩
  · exact absurd h hidx
  · exact ⟨_, hs⟩

/-- The log of a run that got its script written. -/
theorem runScript_trace (env : Env) (p : String) (s : State) :
    ((runScript env p s).trace = s.trace ++ [Event.run (scriptCmd p true) none] ∧
      (env.run (scriptCmd p true) s.files).1 = none) ∨
    (∃ e1 e2, (runScript env p s).trace =
      s.trace ++ [Event.run (scriptCmd p true) (some e1), Event.run (scriptCmd p false) e2] ∧
      (env.run (scriptCmd p true) s.files).1 = some e1 ∧
      (env.run (scriptCmd p false) (env.run (scriptCmd p true) s.files).2).1 = e2) := by
  unfold runScript
  cases h : (env.run (scriptCmd p true) s.files).1 with
  | none => left; simp [h]
  | some e1 => right; exact ⟨e1, _, by simp [h], rfl, rfl⟩

theorem removeScript_trace (env : Env) (p : String) (s : State) :
    (removeScript env p s).trace = s.trace ++ [Event.remove p] := by
  unfold removeScript
  cases env.remove p s.files with
  | none => rfl
  | some r => rfl

theorem removeScript_files_of_ok (env : Env) (p : String) (s : State)
    (h : env.remove p s.files = none) : (removeScript env p s).files p = none := by
  simp [removeScript, h, FS.remove]

theorem removeScript_files_of_error (env : Env) (p : String) (s : State) (err : String)
    (fs : FS) (h : env.remove p s.files = some (err, fs)) :
    (removeScript env p s).files = fs := by
  simp [removeScript, h]

/-- Every run ends, in one of four shapes of log. -/
theorem launch_cases (env : Env) (fs : FS) :
    ∃ s', launch env fs = some s' ∧
      ((∃ m e, s'.trace = [Event.run (errorCmd m) e]) ∨
       (∃ c err m e, s'.trace =
          [Event.writeFile (scriptPath env) c 0o644 (some err), Event.run (errorCmd m) e]) ∨
       (∃ c, s'.trace = [Event.writeFile (scriptPath env) c 0o644 none,
          Event.run (scriptCmd (scriptPath env) true) none, Event.remove (scriptPath env)] ∧
          s' = removeScript env (scriptPath env) (runScript env (scriptPath env)
            ⟨fs.write (scriptPath env) c, [Event.writeFile (scriptPath env) c 0o644 none]⟩) ∧
          (env.run (scriptCmd (scriptPath env) true) (fs.write (scriptPath env) c)).1 = none) ∨
       (∃ c e1 e2, s'.trace = [Event.writeFile (scriptPath env) c 0o644 none,
          Event.run (scriptCmd (scriptPath env) true) (some e1),
          Event.run (scriptCmd (scriptPath env) false) e2, Event.remove (scriptPath env)] ∧
          s' = removeScript env (scriptPath env) (runScript env (scriptPath env)
            ⟨fs.write (scriptPath env) c, [Event.writeFile (scriptPath env) c 0o644 none]⟩) ∧
          (env.run (scriptCmd (scriptPath env) true) (fs.write (scriptPath env) c)).1 = some e1 ∧
          (env.run (scriptCmd (scriptPath env) false)
            (env.run (scriptCmd (scriptPath env) true) (fs.write (scriptPath env) c)).2).1 =
            e2)) := by
  unfold launch
  cases hexe : env.executable with
  | error err =>
    exact ⟨_, main_executable_error env _ err hexe, Or.inl ⟨_, _, rfl⟩⟩
  | ok exePath =>
    cases hread : env.readFile exePath with
    | error err =>
      exact ⟨_, main_read_error env _ exePath err hexe hread, Or.inl ⟨_, _, rfl⟩⟩
    | ok image =>
      by_cases hidx : markerIndex image = -1
      · exact ⟨_, main_marker_missing env _ exePath image hexe hread hidx, Or.inl ⟨_, _, rfl⟩⟩
      · obtain ⟨payload, hscript⟩ := script_isSome image hidx
        by_cases hne : payload = []
        · subst hne
          exact ⟨_, main_empty_script env _ exePath image hexe hread hidx hscript,
            Or.inl ⟨_, _, rfl⟩⟩
        · cases hwrite : env.writeFile (scriptPath env) payload fs with
          | some r =>
            obtain ⟨err, fs1⟩ := r
            exact ⟨_, main_write_error env ⟨fs, []⟩ exePath image payload err fs1 hexe hread
              hidx hscript hne hwrite, Or.inr (Or.inl ⟨_, _, _, _, rfl⟩)⟩
          | none =>
            refine ⟨_, main_written env ⟨fs, []⟩ exePath image payload hexe hread hidx hscript
              hne hwrite, Or.inr (Or.inr ?_)⟩
            rcases runScript_trace env (scriptPath env)
              ⟨fs.write (scriptPath env) payload,
                [Event.writeFile (scriptPath env) payload 0o644 none]⟩ with
              ⟨ht, h1⟩ | ⟨e1, e2, ht, h1, h2⟩
            · left
              exact ⟨payload, by simp [removeScript_trace, ht], rfl, h1⟩
            · right
              exact ⟨payload, e1, e2, by simp [removeScript_trace, ht], rfl, h1, h2⟩

/-- The one file write of a run that reaches it carries the extracted script. -/
theorem launch_writes (env : Env) (fs : FS) (exePath : String) (image payload : Bytes)
    (hexe : env.executable = .ok exePath) (hread : env.readFile exePath = .ok image)
    (hidx : markerIndex image ≠ -1) (hscript : script image = some payload)
    (hne : payload ≠ []) :
    ∃ s' err, launch env fs = some s' ∧
      s'.trace.filter Event.isWrite = [Event.writeFile (scriptPath env) payload 0o644 err] := by
  unfold launch
  cases hwrite : env.writeFile (scriptPath env) payload fs with
  | some r =>
    obtain ⟨err, fs1⟩ := r
    refine ⟨_, some err, main_write_error env ⟨fs, []⟩ exePath image payload err fs1 hexe hread
      hidx hscript hne hwrite, ?_⟩
    simp [showError, List.filter, Event.isWrite]
  | none =>
    refine ⟨_, none, main_written env ⟨fs, []⟩ exePath image payload hexe hread hidx hscript
      hne hwrite, ?_⟩
    rcases runScript_trace env (scriptPath env)
      ⟨fs.write (scriptPath env) payload,
        [Event.writeFile (scriptPath env) payload 0o644 none]⟩ with ⟨ht, _⟩ | ⟨e1, e2, ht, _, _⟩
    · simp [removeScript_trace, ht, List.filter, Event.isWrite]
    · simp [removeScript_trace, ht, List.filter, Event.isWrite]

/-! ## Occurrences of the marker that overlap -/

theorem occursAt_getElem? {sep s : Bytes} {j : Nat} (h : OccursAt sep s j) (d : Nat)
    (hd : d < sep.length) : s[j + d]? = sep[d]? := by
  obtain ⟨t, ht⟩ := h
  have h1 : (s.drop j)[d]? = sep[d]? := by
    rw [← ht, List.getElem?_append_left hd]
  rw [← h1, List.getElem?_drop]

theorem marker_self_overlap :
    ∀ d < 27, 1 ≤ d → ∃ k < 30, d + k < 30 ∧ markerBytes[d + k]? ≠ markerBytes[k]? := by
  decide

theorem occursAt_far {image : Bytes} {i j : Nat} (hi : OccursAt markerBytes image i)
    (hj : OccursAt markerBytes image j) (hlt : i < j) : i + 27 ≤ j := by
  by_contra hcon
  obtain ⟨k, hk, hdk, hne⟩ := marker_self_overlap (j - i) (by omega) (by omega)
  have h1 := occursAt_getElem? hi (j - i + k) (by rw [markerBytes_length]; omega)
  have h2 := occursAt_getElem? hj k (by rw [markerBytes_length]; omega)
  have h3 : i + (j - i + k) = j + k := by omega
  rw [h3, h2] at h1
  exact hne h1.symm

/-! ## Extraction -/

/-- C1 (as stated, refuted): in `overlapImage` the marker occurs, its first
occurrence is at offset 0 and the script is the bytes from offset 30, but the
later occurrence at offset 27 does not lie inside the script: no offset `i`
satisfies the claim with its clause that later occurrences start at or after
`i + 30`. -/
theorem later_occurrence_overlaps_counterexample :
    markerBytes <:+: overlapImage ∧
    ¬ ∃ i : Nat, OccursAt markerBytes overlapImage i ∧
      (∀ j < i, ¬ OccursAt markerBytes overlapImage j) ∧
      script overlapImage = some (overlapImage.drop (i + 30)) ∧
      overlapImage = overlapImage.take i ++ markerBytes ++ overlapImage.drop (i + 30) ∧
      ∀ j, OccursAt markerBytes overlapImage j → j ≠ i → i + 30 ≤ j := by
  refine ⟨by decide, ?_⟩
  rintro ⟨i, _, hmin, _, _, hlater⟩
  have h0 : OccursAt markerBytes overlapImage 0 := by decide
  have h27 : OccursAt markerBytes overlapImage 27 := by decide
  have hi : i = 0 := by
    by_contra hne
    exact hmin 0 (Nat.pos_of_ne_zero hne) h0
  subst hi
  have := hlater 27 h27 (by decide)
  omega

/-- C1 (amended): for every image in which the marker occurs, with `i` the
least offset of an occurrence, the marker search returns `i`, the script
extracted by `main` is the image from offset `i + 30` to the end, the image
is `prefix ++ marker ++ script` with `prefix` its first `i` bytes, and `main`
passes exactly that script to its one file write when it is not empty.  Every
other occurrence starts at offset `i + 27` or later; one that starts at
`i + 30` or later is an occurrence inside the script, at the offset shifted
by `i + 30`. -/
theorem script_after_first_marker (image : Bytes) (h : markerBytes <:+: image) :
    ∃ i : Nat, markerIndex image = (i : Int) ∧ OccursAt markerBytes image i ∧
      (∀ j < i, ¬ OccursAt markerBytes image j) ∧
      script image = some (image.drop (i + 30)) ∧
      image = image.take i ++ markerBytes ++ image.drop (i + 30) ∧
      (∀ j, OccursAt markerBytes image j → j ≠ i → i + 27 ≤ j) ∧
      (∀ j, i + 30 ≤ j → (OccursAt markerBytes image j ↔
        OccursAt markerBytes (image.drop (i + 30)) (j - (i + 30)))) ∧
      (∀ (env : Env) (fs : FS) (exePath : String), env.executable = .ok exePath →
        env.readFile exePath = .ok image → image.drop (i + 30) ≠ [] →
        ∃ s' err, launch env fs = some s' ∧ s'.trace.filter Event.isWrite =
          [Event.writeFile (scriptPath env) (image.drop (i + 30)) 0o644 err]) := by
  rcases markerIndex_cases image with ⟨_, hno⟩ | ⟨i, hidx, hocc, hmin, hlen, hscript⟩
  · exact absurd h hno
  · refine ⟨i, hidx, hocc, hmin, hscript, ?_, ?_, ?_, ?_⟩
    · obtain ⟨t, ht⟩ := hocc
      have hl : (markerBytes ++ t).length = (image.drop i).length := by rw [ht]
      have ht2 : t = (image.drop i).drop 30 := by
        rw [← ht, List.drop_left' markerBytes_length]
      rw [List.drop_drop] at ht2
      rw [List.append_assoc, ← ht2, ht, List.take_append_drop]
    · intro j hj hne
      rcases Nat.lt_or_gt_of_ne hne with hlt | hgt
      · exact absurd hj (hmin j hlt)
      · exact occursAt_far hocc hj hgt
    · intro j hj
      unfold OccursAt
      rw [List.drop_drop]
      have : i + 30 + (j - (i + 30)) = j := by omega
      rw [this]
    · intro env fs exePath hexe hread hne
      exact launch_writes env fs exePath image _ hexe hread (by rw [hidx]; omega) hscript hne

/-- C1 (amended), at an instance: the image `stub ++ marker ++ script` of the
packaging scenario. -/
theorem script_after_first_marker_witness :
    markerBytes <:+: sampleStub ++ markerBytes ++ sampleScript ∧
    ∃ i : Nat, markerIndex (sampleStub ++ markerBytes ++ sampleScript) = (i : Int) ∧
      script (sampleStub ++ markerBytes ++ sampleScript) =
        some ((sampleStub ++ markerBytes ++ sampleScript).drop (i + 30)) :=
  ⟨by decide,
    (script_after_first_marker (sampleStub ++ markerBytes ++ sampleScript) (by decide)).imp
      fun _ hi => ⟨hi.1, hi.2.2.2.1⟩⟩

/-! ## The failures of extraction -/

theorem errorCmd_ne_scriptCmd (m p : String) (hide : Bool) : errorCmd m ≠ scriptCmd p hide := by
  intro h
  have := congrArg (fun c => c.args.length) h
  simp [errorCmd, scriptCmd] at this

/-- C2: when the image read holds no marker, the run ends without panic and
its whole log is one child process, the error dialog of `showError` on the
message "ไม่พบสคริปต์ติดตั้ง กรุณาดาวน์โหลดไฟล์ใหม่", which contains
"ไม่พบสคริปต์ติดตั้ง": one dialog, no file write, no run of the interpreter on
a script file, and the file system is the one the dialog process leaves. -/
theorem marker_missing_only_dialog (env : Env) (fs : FS) (exePath : String) (image : Bytes)
    (hexe : env.executable = .ok exePath) (hread : env.readFile exePath = .ok image)
    (hno : ¬ markerBytes <:+: image) :
    ∃ s' msg, launch env fs = some s' ∧
      "ไม่พบสคริปต์ติดตั้ง".data <:+: msg.data ∧
      s'.trace = [Event.run (errorCmd msg) (env.run (errorCmd msg) fs).1] ∧
      dialogCount s'.trace = 1 ∧ writeCount s'.trace = 0 ∧
      (∀ p hide e, Event.run (scriptCmd p hide) e ∉ s'.trace) ∧
      s'.files = (env.run (errorCmd msg) fs).2 := by
  have hidx : markerIndex image = -1 := by
    rcases markerIndex_cases image with ⟨h, _⟩ | ⟨i, _, hocc, _⟩
    · exact h
    · exact absurd ((infix_iff_occursAt _ _).2 ⟨i, hocc⟩) hno
  refine ⟨_, "ไม่พบสคริปต์ติดตั้ง กรุณาดาวน์โหลดไฟล์ใหม่",
    main_marker_missing env ⟨fs, []⟩ exePath image hexe hread hidx, by decide, ?_, ?_, ?_, ?_, ?_⟩
  · simp [showError]
  · simp [showError, dialogCount, Event.isDialog, errorCmd]
  · simp [showError, writeCount, Event.isWrite]
  · intro p hide e hmem
    simp only [showError, List.nil_append, List.mem_singleton, Event.run.injEq] at hmem
    exact errorCmd_ne_scriptCmd _ _ _ hmem.1.symm
  · simp [showError]

/-- C2, at an instance: an image without the marker, on the test platform. -/
theorem marker_missing_only_dialog_witness :
    ¬ markerBytes <:+: sampleStub ∧
    ∃ s' msg, launch (testEnv sampleStub none none) emptyFS = some s' ∧
      "ไม่พบสคริปต์ติดตั้ง".data <:+: msg.data ∧
      s'.trace = [Event.run (errorCmd msg)
        ((testEnv sampleStub none none).run (errorCmd msg) emptyFS).1] ∧
      dialogCount s'.trace = 1 ∧ writeCount s'.trace = 0 ∧
      (∀ p hide e, Event.run (scriptCmd p hide) e ∉ s'.trace) ∧
      s'.files = ((testEnv sampleStub none none).run (errorCmd msg) emptyFS).2 :=
  ⟨by decide, marker_missing_only_dialog (testEnv sampleStub none none) emptyFS "C:\\setup.exe"
    sampleStub rfl rfl (by decide)⟩

/-- C3 (as stated, refuted): `doubleMarker` ends with the marker, yet the run
on it shows no dialog and writes the temp script file, with the second
marker as content. -/
theorem ends_with_marker_counterexample :
    markerBytes <:+ doubleMarker ∧
    (launch (testEnv doubleMarker none none) emptyFS).map (fun s => s.trace) =
      some [Event.writeFile "C:\\Temp\\KodLaewLong-Installer.ps1" markerBytes 0o644 none,
        Event.run (scriptCmd "C:\\Temp\\KodLaewLong-Installer.ps1" true) none,
        Event.remove "C:\\Temp\\KodLaewLong-Installer.ps1"] ∧
    (launch (testEnv doubleMarker none none) emptyFS).map (fun s => dialogCount s.trace) =
      some 0 ∧
    (launch (testEnv doubleMarker none none) emptyFS).map (fun s => writeCount s.trace) =
      some 1 := by
  decide

/-- C3 (amended): when the image read ends with the marker and the marker
occurs at no earlier offset (its first occurrence is the final 30 bytes),
the run ends without panic and its whole log is the error dialog on the
message "สคริปต์ติดตั้งว่างเปล่า": one dialog and no file write. -/
theorem empty_script_only_dialog (env : Env) (fs : FS) (exePath : String) (image : Bytes)
    (hexe : env.executable = .ok exePath) (hread : env.readFile exePath = .ok image)
    (hsuf : markerBytes <:+ image)
    (hfirst : ∀ j < image.length - 30, ¬ OccursAt markerBytes image j) :
    ∃ s', launch env fs = some s' ∧
      script image = some [] ∧
      s'.trace = [Event.run (errorCmd "สคริปต์ติดตั้งว่างเปล่า")
        (env.run (errorCmd "สคริปต์ติดตั้งว่างเปล่า") fs).1] ∧
      dialogCount s'.trace = 1 ∧ writeCount s'.trace = 0 := by
  have hinf : markerBytes <:+: image := hsuf.isInfix
  rcases markerIndex_cases image with ⟨_, hno⟩ | ⟨i, hidx, hocc, _, hlen, hscript⟩
  · exact absurd hinf hno
  · have hend : i + 30 = image.length := by
      by_contra hne
      exact hfirst i (by omega) hocc
    have hs : script image = some [] := by
      rw [hscript, hend, List.drop_length]
    refine ⟨_, main_empty_script env ⟨fs, []⟩ exePath image hexe hread (by rw [hidx]; omega) hs,
      hs, ?_, ?_, ?_⟩
    · simp [showError]
    · simp [showError, dialogCount, Event.isDialog, errorCmd]
    · simp [showError, writeCount, Event.isWrite]

/-- C3 (amended), at an instance: the image `stub ++ marker`. -/
theorem empty_script_only_dialog_witness :
    markerBytes <:+ sampleStub ++ markerBytes ∧
    (∀ j < (sampleStub ++ markerBytes).length - 30,
      ¬ OccursAt markerBytes (sampleStub ++ markerBytes) j) ∧
    ∃ s', launch (testEnv (sampleStub ++ markerBytes) none none) emptyFS = some s' ∧
      script (sampleStub ++ markerBytes) = some [] ∧
      s'.trace = [Event.run (errorCmd "สคริปต์ติดตั้งว่างเปล่า")
        ((testEnv (sampleStub ++ markerBytes) none none).run
          (errorCmd "สคริปต์ติดตั้งว่างเปล่า") emptyFS).1] ∧
      dialogCount s'.trace = 1 ∧ writeCount s'.trace = 0 :=
  ⟨by decide, by decide,
    empty_script_only_dialog (testEnv (sampleStub ++ markerBytes) none none) emptyFS
      "C:\\setup.exe" (sampleStub ++ markerBytes) rfl rfl (by decide) (by decide)⟩

/-! ## The packaged image -/

theorem trace_of_launch {env : Env} {fs : FS} {s' : State} {t : List Event}
    (hl : launch env fs = some s')
    (ht : (launch env fs).map (fun s => s.trace) = some t) : s'.trace = t := by
  rw [hl] at ht
  exact Option.some.inj ht

/-- C5 (as stated, refuted): on `lockedEnv` the temp script file is written
successfully and the script runs, the deferred `os.Remove` then fails, `main`
discards the error, and the file is still there, with the script as content,
when `main` finishes. -/
theorem removal_failure_counterexample :
    (launch lockedEnv emptyFS).map (fun s => s.trace) =
      some [Event.writeFile "C:\\Temp\\KodLaewLong-Installer.ps1" sampleScript 0o644 none,
        Event.run (scriptCmd "C:\\Temp\\KodLaewLong-Installer.ps1" true) none,
        Event.remove "C:\\Temp\\KodLaewLong-Installer.ps1"] ∧
    (launch lockedEnv emptyFS).map (fun s => s.files "C:\\Temp\\KodLaewLong-Installer.ps1") =
      some (some sampleScript) := by
  decide

/-- C5 (amended): every run ends without panic, and if its log has a
successful write of a file (path `p`), then `p` is the temp script path and
`os.Remove(p)` is called exactly once, as the last call of the run, after
every run of the interpreter, whatever the hidden and the visible run
returned and whatever they did to the file system.  If that removal succeeds,
no file is at `p` when `main` finishes; if it fails, the error is discarded
and the final file system is the one the failed call left. -/
theorem temp_script_removed (env : Env) (fs : FS) :
    ∃ s', launch env fs = some s' ∧
      ∀ p c perm, Event.writeFile p c perm none ∈ s'.trace →
        p = scriptPath env ∧
        s'.trace.getLast? = some (Event.remove p) ∧
        s'.trace.count (Event.remove p) = 1 ∧
        (env.remove p (runScript env p ⟨fs.write p c, [Event.writeFile p c perm none]⟩).files
            = none → s'.files p = none) ∧
        (∀ err fs2,
          env.remove p (runScript env p ⟨fs.write p c, [Event.writeFile p c perm none]⟩).files
            = some (err, fs2) → s'.files = fs2) := by
  obtain ⟨s', hl, hc⟩ := launch_cases env fs
  refine ⟨s', hl, ?_⟩
  intro p c perm hmem
  rcases hc with ⟨m, e, ht⟩ | ⟨c', err, m, e, ht⟩ | ⟨c', ht, hs, _⟩ | ⟨c', e1, e2, ht, hs, _⟩
  · simp [ht] at hmem
  · simp [ht] at hmem
  · rw [ht] at hmem
    simp at hmem
    obtain ⟨rfl, rfl, rfl⟩ := hmem
    refine ⟨rfl, by simp [ht], by simp [ht, List.count_cons], ?_, ?_⟩
    · intro hok
      rw [hs]
      exact removeScript_files_of_ok env _ _ hok
    · intro err fs2 herr
      rw [hs]
      exact removeScript_files_of_error env _ _ err fs2 herr
  · rw [ht] at hmem
    simp at hmem
    obtain ⟨rfl, rfl, rfl⟩ := hmem
    refine ⟨rfl, by simp [ht], by simp [ht, List.count_cons], ?_, ?_⟩
    · intro hok
      rw [hs]
      exact removeScript_files_of_ok env _ _ hok
    · intro err fs2 herr
      rw [hs]
      exact removeScript_files_of_error env _ _ err fs2 herr

/-- C5 (amended), at an instance: on `failingEnv` the script is written, both
runs of the interpreter fail, the removal succeeds, and the temp script file
is gone at the end. -/
theorem temp_script_removed_witness :
    ∃ s', launch failingEnv emptyFS = some s' ∧
      Event.writeFile "C:\\Temp\\KodLaewLong-Installer.ps1" sampleScript 0o644 none ∈ s'.trace ∧
      Event.run (scriptCmd "C:\\Temp\\KodLaewLong-Installer.ps1" true) (some "exit status 1")
        ∈ s'.trace ∧
      Event.run (scriptCmd "C:\\Temp\\KodLaewLong-Installer.ps1" false) (some "exit status 1")
        ∈ s'.trace ∧
      s'.files "C:\\Temp\\KodLaewLong-Installer.ps1" = none ∧
      s'.trace.getLast? = some (Event.remove "C:\\Temp\\KodLaewLong-Installer.ps1") := by
  obtain ⟨s', hl, h⟩ := temp_script_removed failingEnv emptyFS
  have ht : s'.trace = [Event.writeFile "C:\\Temp\\KodLaewLong-Installer.ps1" sampleScript 0o644 none,
      Event.run (scriptCmd "C:\\Temp\\KodLaewLong-Installer.ps1" true) (some "exit status 1"),
      Event.run (scriptCmd "C:\\Temp\\KodLaewLong-Installer.ps1" false) (some "exit status 1"),
      Event.remove "C:\\Temp\\KodLaewLong-Installer.ps1"] :=
    trace_of_launch hl (by decide)
  have hmem : Event.writeFile "C:\\Temp\\KodLaewLong-Installer.ps1" sampleScript 0o644 none
      ∈ s'.trace := by rw [ht]; exact List.mem_cons_self _ _
  obtain ⟨_, hlast, _, hok, _⟩ := h _ _ _ hmem
  exact ⟨s', hl, hmem, by rw [ht]; decide, by rw [ht]; decide, hok rfl, hlast⟩

/-- C6: every run ends without panic, and if it reaches execution (its log has
a successful write, of path `p`), its log is one of two: the write, the hidden
run of `powershell.exe -ExecutionPolicy Bypass -NoProfile -File p` returning
no error, the removal; or the write, that hidden run returning an error, one
run of the same command line without the hidden-window attribute, the
removal.  The first log is the one of the runs whose hidden run succeeds, the
second of those whose hidden run fails; the visible run is started on the file
system the hidden run left, and whatever it returns the log ends the same. -/
theorem fallback_once (env : Env) (fs : FS) :
    ∃ s', launch env fs = some s' ∧
      ∀ p c perm, Event.writeFile p c perm none ∈ s'.trace →
        (s'.trace = [Event.writeFile p c perm none,
            Event.run ⟨"powershell.exe",
              ["-ExecutionPolicy", "Bypass", "-NoProfile", "-File", p], true⟩ none,
            Event.remove p] ∧
          (env.run (scriptCmd p true) (fs.write p c)).1 = none) ∨
        (∃ e1 e2, s'.trace = [Event.writeFile p c perm none,
            Event.run ⟨"powershell.exe",
              ["-ExecutionPolicy", "Bypass", "-NoProfile", "-File", p], true⟩ (some e1),
            Event.run ⟨"powershell.exe",
              ["-ExecutionPolicy", "Bypass", "-NoProfile", "-File", p], false⟩ e2,
            Event.remove p] ∧
          (env.run (scriptCmd p true) (fs.write p c)).1 = some e1 ∧
          (env.run (scriptCmd p false) (env.run (scriptCmd p true) (fs.write p c)).2).1 = e2) := by
  obtain ⟨s', hl, hc⟩ := launch_cases env fs
  refine ⟨s', hl, ?_⟩
  intro p c perm hmem
  rcases hc with ⟨m, e, ht⟩ | ⟨c', err, m, e, ht⟩ | ⟨c', ht, _, h1⟩ |
    ⟨c', e1, e2, ht, _, h1, h2⟩
  · simp [ht] at hmem
  · simp [ht] at hmem
  · rw [ht] at hmem
    simp at hmem
    obtain ⟨rfl, rfl, rfl⟩ := hmem
    exact Or.inl ⟨ht, h1⟩
  · rw [ht] at hmem
    simp at hmem
    obtain ⟨rfl, rfl, rfl⟩ := hmem
    exact Or.inr ⟨e1, e2, ht, h1, h2⟩

/-- C6, at an instance: on `fallbackEnv` the hidden run fails and the log has
exactly one more run, the visible one, before the removal. -/
theorem fallback_once_witness :
    ∃ s' e1 e2, launch fallbackEnv emptyFS = some s' ∧
      s'.trace = [Event.writeFile "C:\\Temp\\KodLaewLong-Installer.ps1" sampleScript 0o644 none,
        Event.run ⟨"powershell.exe", ["-ExecutionPolicy", "Bypass", "-NoProfile", "-File",
          "C:\\Temp\\KodLaewLong-Installer.ps1"], true⟩ (some e1),
        Event.run ⟨"powershell.exe", ["-ExecutionPolicy", "Bypass", "-NoProfile", "-File",
          "C:\\Temp\\KodLaewLong-Installer.ps1"], false⟩ e2,
        Event.remove "C:\\Temp\\KodLaewLong-Installer.ps1"] := by
  obtain ⟨s', hl, h⟩ := fallback_once fallbackEnv emptyFS
  have ht : s'.trace = [Event.writeFile "C:\\Temp\\KodLaewLong-Installer.ps1" sampleScript 0o644 none,
      Event.run (scriptCmd "C:\\Temp\\KodLaewLong-Installer.ps1" true) (some "exit status 1"),
      Event.run (scriptCmd "C:\\Temp\\KodLaewLong-Installer.ps1" false) none,
      Event.remove "C:\\Temp\\KodLaewLong-Installer.ps1"] :=
    trace_of_launch hl (by decide)
  have hmem : Event.writeFile "C:\\Temp\\KodLaewLong-Installer.ps1" sampleScript 0o644 none
      ∈ s'.trace := by rw [ht]; exact List.mem_cons_self _ _
  rcases h _ _ _ hmem with ⟨_, h1⟩ | ⟨e1, e2, h2, _, _⟩
  · exact absurd h1 (by decide)
  · exact ⟨s', e1, e2, hl, h2⟩

/-! ## Dialogs and side effects -/

theorem showError_endsWithOneDialog (env : Env) (m : String) (fs : FS) :
    EndsWithOneDialog (showError env m ⟨fs, []⟩).trace :=
  ⟨by simp [showError, dialogCount, Event.isDialog, errorCmd],
    m, (env.run (errorCmd m) fs).1, by simp [showError]⟩

/-- C7 (as stated, refuted): on `failingEnv` the hidden run of the interpreter
fails (and so does the visible one), and the run ends with no error dialog
in its log. -/
theorem interpreter_failure_counterexample :
    (launch failingEnv emptyFS).map (fun s => s.trace) =
      some [Event.writeFile "C:\\Temp\\KodLaewLong-Installer.ps1" sampleScript 0o644 none,
        Event.run (scriptCmd "C:\\Temp\\KodLaewLong-Installer.ps1" true) (some "exit status 1"),
        Event.run (scriptCmd "C:\\Temp\\KodLaewLong-Installer.ps1" false) (some "exit status 1"),
        Event.remove "C:\\Temp\\KodLaewLong-Installer.ps1"] ∧
    (launch failingEnv emptyFS).map (fun s => dialogCount s.trace) = some 0 := by
  decide

/-- C7 (amended): every run ends without panic.  If it ends in
PathResolutionError (`os.Executable` fails), ReadError (`os.ReadFile` fails),
PayloadMissingError (no marker in the image), EmptyPayloadError (the marker is
found and the script is empty) or WriteError (`os.WriteFile` fails), its log
has exactly one error dialog, which is the last call of the run.  If the
script was written and the hidden run of the interpreter fails, the log has
no error dialog. -/
theorem failure_dialogs (env : Env) (fs : FS) :
    ∃ s', launch env fs = some s' ∧
      (∀ err, env.executable = .error err → EndsWithOneDialog s'.trace) ∧
      (∀ exePath err, env.executable = .ok exePath → env.readFile exePath = .error err →
        EndsWithOneDialog s'.trace) ∧
      (∀ exePath image, env.executable = .ok exePath → env.readFile exePath = .ok image →
        (¬ markerBytes <:+: image → EndsWithOneDialog s'.trace) ∧
        (markerBytes <:+: image → script image = some [] → EndsWithOneDialog s'.trace) ∧
        (∀ payload, markerBytes <:+: image → script image = some payload → payload ≠ [] →
          (env.writeFile (scriptPath env) payload fs ≠ none → EndsWithOneDialog s'.trace) ∧
          (env.writeFile (scriptPath env) payload fs = none →
            (env.run (scriptCmd (scriptPath env) true) (fs.write (scriptPath env) payload)).1
              ≠ none →
            dialogCount s'.trace = 0))) := by
  unfold launch
  cases hexe : env.executable with
  | error err =>
    refine ⟨_, main_executable_error env _ err hexe, ?_, ?_, ?_⟩
    · intro _ _
      exact showError_endsWithOneDialog env _ fs
    · intro _ _ h
      cases h
    · intro _ _ h
      cases h
  | ok exePath =>
    cases hread : env.readFile exePath with
    | error err =>
      refine ⟨_, main_read_error env _ exePath err hexe hread, ?_, ?_, ?_⟩
      · intro _ h
        cases h
      · intro _ _ _ _
        exact showError_endsWithOneDialog env _ fs
      · intro p image h1 h2
        cases h1
        rw [hread] at h2
        cases h2
    | ok image =>
      by_cases hidx : markerIndex image = -1
      · have hno : ¬ markerBytes <:+: image := by
          rcases markerIndex_cases image with ⟨_, h⟩ | ⟨i, hi, _⟩
          · exact h
          · rw [hi] at hidx
            omega
        refine ⟨_, main_marker_missing env _ exePath image hexe hread hidx, ?_, ?_, ?_⟩
        · intro _ h
          cases h
        · intro p _ h1 h2
          cases h1
          rw [hread] at h2
          cases h2
        · intro p image' h1 h2
          cases h1
          rw [hread] at h2
          cases h2
          refine ⟨fun _ => showError_endsWithOneDialog env _ fs, fun h => absurd h hno,
            fun _ h => absurd h hno⟩
      · have hin : markerBytes <:+: image := by
          rcases markerIndex_cases image with ⟨h, _⟩ | ⟨i, _, hocc, _⟩
          · exact absurd h hidx
          · exact (infix_iff_occursAt _ _).2 ⟨i, hocc⟩
        obtain ⟨payload, hscript⟩ := script_isSome image hidx
        by_cases hne : payload = []
        · subst hne
          refine ⟨_, main_empty_script env _ exePath image hexe hread hidx hscript, ?_, ?_, ?_⟩
          · intro _ h
            cases h
          · intro p _ h1 h2
            cases h1
            rw [hread] at h2
            cases h2
          · intro p image' h1 h2
            cases h1
            rw [hread] at h2
            cases h2
            refine ⟨fun h => absurd hin h, fun _ _ => showError_endsWithOneDialog env _ fs, ?_⟩
            intro payload' _ hs hne'
            rw [hscript] at hs
            exact absurd (Option.some.inj hs).symm hne'
        · cases hwrite : env.writeFile (scriptPath env) payload fs with
          | some r =>
            obtain ⟨err, fs1⟩ := r
            refine ⟨_, main_write_error env ⟨fs, []⟩ exePath image payload err fs1 hexe hread
              hidx hscript hne hwrite, ?_, ?_, ?_⟩
            · intro _ h
              cases h
            · intro p _ h1 h2
              cases h1
              rw [hread] at h2
              cases h2
            · intro p image' h1 h2
              cases h1
              rw [hread] at h2
              cases h2
              refine ⟨fun h => absurd hin h, ?_, ?_⟩
              · intro _ hs
                rw [hscript] at hs
                exact absurd (Option.some.inj hs) hne
              · intro payload' _ hs _
                rw [hscript] at hs
                cases hs
                refine ⟨fun _ => ?_, fun h => ?_⟩
                · exact ⟨by simp [showError, dialogCount, Event.isDialog, errorCmd],
                    "ไม่สามารถสร้างไฟล์ชั่วคราวได้: " ++ err,
                    (env.run (errorCmd ("ไม่สามารถสร้างไฟล์ชั่วคราวได้: " ++ err)) fs1).1,
                    by simp [showError]⟩
                · rw [hwrite] at h
                  cases h
          | none =>
            refine ⟨_, main_written env ⟨fs, []⟩ exePath image payload hexe hread hidx hscript
              hne hwrite, ?_, ?_, ?_⟩
            · intro _ h
              cases h
            · intro p _ h1 h2
              cases h1
              rw [hread] at h2
              cases h2
            · intro p image' h1 h2
              cases h1
              rw [hread] at h2
              cases h2
              refine ⟨fun h => absurd hin h, ?_, ?_⟩
              · intro _ hs
                rw [hscript] at hs
                exact absurd (Option.some.inj hs) hne
              · intro payload' _ hs _
                rw [hscript] at hs
                cases hs
                refine ⟨fun h => absurd hwrite h, fun _ hrun => ?_⟩
                rcases runScript_trace env (scriptPath env)
                  ⟨fs.write (scriptPath env) payload,
                    [Event.writeFile (scriptPath env) payload 0o644 none]⟩ with
                  ⟨_, h1⟩ | ⟨e1, e2, ht, _, _⟩
                · exact absurd h1 hrun
                · simp [removeScript_trace, ht, dialogCount, Event.isDialog, scriptCmd]

/-- C7 (amended), at two instances: an image without the marker gives one
dialog, and `failingEnv`, where the interpreter fails, gives none. -/
theorem failure_dialogs_witness :
    (∃ s', launch (testEnv sampleStub none none) emptyFS = some s' ∧
      EndsWithOneDialog s'.trace) ∧
    (∃ s', launch failingEnv emptyFS = some s' ∧ dialogCount s'.trace = 0) :=
  ⟨(failure_dialogs (testEnv sampleStub none none) emptyFS).imp fun _ h =>
      ⟨h.1, (h.2.2.2 "C:\\setup.exe" sampleStub rfl rfl).1 (by decide)⟩,
    (failure_dialogs failingEnv emptyFS).imp fun _ h =>
      ⟨h.1, ((h.2.2.2 "C:\\setup.exe" sampleImage rfl rfl).2.2 sampleScript (by decide)
        (by decide) (by decide)).2 rfl (by decide)⟩⟩

/-- C8: every run ends without panic, and its log has at most one error
dialog, at most one file write and at most two child processes, the
interpreter process of the dialog counted among them. -/
theorem side_effect_bounds (env : Env) (fs : FS) :
    ∃ s', launch env fs = some s' ∧
      dialogCount s'.trace ≤ 1 ∧ writeCount s'.trace ≤ 1 ∧ childCount s'.trace ≤ 2 := by
  obtain ⟨s', hl, hc⟩ := launch_cases env fs
  refine ⟨s', hl, ?_⟩
  rcases hc with ⟨m, e, ht⟩ | ⟨c, err, m, e, ht⟩ | ⟨c, ht, _⟩ | ⟨c, e1, e2, ht, _⟩ <;>
    simp [ht, dialogCount, writeCount, childCount, Event.isDialog, Event.isWrite, Event.isRun,
      errorCmd, scriptCmd]

/-! ## The dialog script -/

/-- C9: for every message `m`, the inline script of `showError` is the fixed
prefix, then `m` unchanged, then the fixed suffix with the title
'KodLaewLong Error' and the buttons 'OK', 'Error'; `showError` runs
`powershell.exe -Command` on exactly that script, with a visible window; and a
single quote in the message stands unescaped between the quotes of the
script's string literal. -/
theorem error_script_verbatim (m : String) :
    errorScript m =
      "\nAdd-Type -AssemblyName System.Windows.Forms\n[System.Windows.Forms.MessageBox]::Show('"
        ++ m ++ "', 'KodLaewLong Error', 'OK', 'Error')\n" ∧
    (∀ (env : Env) (s : State), (showError env m s).trace = s.trace ++
      [Event.run ⟨"powershell.exe", ["-Command",
        "\nAdd-Type -AssemblyName System.Windows.Forms\n[System.Windows.Forms.MessageBox]::Show('"
          ++ m ++ "', 'KodLaewLong Error', 'OK', 'Error')\n"], false⟩
        (env.run (errorCmd m) s.files).1]) ∧
    (∀ a b : String, m = a ++ "'" ++ b → errorScript m =
      "\nAdd-Type -AssemblyName System.Windows.Forms\n[System.Windows.Forms.MessageBox]::Show('"
        ++ a ++ "'" ++ b ++ "', 'KodLaewLong Error', 'OK', 'Error')\n") := by
  have h : errorScript m =
      "\nAdd-Type -AssemblyName System.Windows.Forms\n[System.Windows.Forms.MessageBox]::Show('"
        ++ m ++ "', 'KodLaewLong Error', 'OK', 'Error')\n" := by
    apply String.ext
    simp only [errorScript, Sprintf, String.data_append]
    rfl
  refine ⟨h, ?_, ?_⟩
  · intro env s
    simp only [showError, errorCmd, h]
  · rintro a b rfl
    rw [h]
    simp only [String.append_assoc]

/-- C9, at an instance: the message "it's". -/
theorem error_script_verbatim_witness :
    errorScript "it's" =
      "\nAdd-Type -AssemblyName System.Windows.Forms\n[System.Windows.Forms.MessageBox]::Show('it's', 'KodLaewLong Error', 'OK', 'Error')\n" :=
  ((error_script_verbatim "it's").2.2 "it" "s" (by decide)).trans (by decide)

/-! ## Slice safety -/

/-- C10: whenever the marker search on an image returns an offset other than
`-1`, that offset `i` satisfies `0 ≤ i` and `i + 30 ≤ len(image)`, `scriptStart`
is `i + 30`, the slice `image[i+30:]` is in bounds (it yields the script, no
panic), the script is empty exactly when `i + 30 = len(image)`, and every run
of `main` on that image ends without panic. -/
theorem slice_in_bounds (image : Bytes) (h : markerIndex image ≠ -1) :
    0 ≤ markerIndex image ∧ markerIndex image + 30 ≤ (image.length : Int) ∧
    scriptStart image = markerIndex image + 30 ∧
    (∃ payload, sliceFrom image (markerIndex image + 30) = some payload ∧
      script image = some payload ∧
      (payload = [] ↔ markerIndex image + 30 = (image.length : Int))) ∧
    (∀ (env : Env) (fs : FS) (exePath : String), env.executable = .ok exePath →
      env.readFile exePath = .ok image → ∃ s', launch env fs = some s') := by
  rcases markerIndex_cases image with ⟨h1, _⟩ | ⟨i, hidx, _, _, hlen, hscript⟩
  · exact absurd h1 h
  · have hstart : scriptStart image = markerIndex image + 30 := by
      simp [scriptStart, markerBytes_length]
    refine ⟨by rw [hidx]; omega, by rw [hidx]; omega, hstart, ⟨image.drop (i + 30), ?_, hscript, ?_⟩,
      fun env fs _ _ _ => (launch_cases env fs).imp fun _ hs => hs.1⟩
    · rw [← hstart]
      exact hscript
    · rw [hidx, List.drop_eq_nil_iff]
      constructor <;> intro h2 <;> omega

/-- C10, at an instance: the image `stub ++ marker ++ script`. -/
theorem slice_in_bounds_witness :
    markerIndex sampleImage ≠ -1 ∧
    0 ≤ markerIndex sampleImage ∧ markerIndex sampleImage + 30 ≤ (sampleImage.length : Int) ∧
    script sampleImage = some sampleScript :=
  ⟨by decide, (slice_in_bounds sampleImage (by decide)).1,
    (slice_in_bounds sampleImage (by decide)).2.1, by decide⟩

end InstallerStub
